import Mathlib

/-!
Shallow embedding of the unit-test-mcp analysis-and-planning pipeline.

Sources embedded (translated from the TypeScript source, file by file):
* `src/analysis-constants.ts` — `COMPLEXITY_THRESHOLDS`, `ERROR_CONDITION_PATTERNS`.
* `src/error-path-analyzer.ts` — the four error-path passes and their
  categorization / severity / recoverability policies.
* `src/method-flow-analyzer.ts` — `calculateComplexity`, `determineFlowType`.
* `src/dependency-analyzer.ts` — `analyzeDependencyUsage`, `findDependencyCalls`,
  `hasConditionalCalls`, `hasErrorHandling`.
* `src/test-scenario-generator.ts` — `generateMethodScenarios`, `getScenarioKey`.
* `src/session-state-manager.ts` — the session/plan/progress tracker.

JavaScript strings are Lean `String`s; JS `Map` objects are association lists
in insertion order (`Map.set` replaces in place or appends); JS `Date` values
are `Nat` timestamps passed explicitly; JS regular-expression `test` is a
Brzozowski-derivative matcher over an explicit regex syntax.
-/

/-! ### JavaScript string primitives -/

/-- JS `\s` for the ASCII range (space, tab, LF, VT, FF, CR). -/
def isJsWs (c : Char) : Bool :=
  c == ' ' || c == '\t' || c == '\n' || c == '\r' || c.toNat == 11 || c.toNat == 12

/-- Does `hay` start with `sub`? -/
def startsWithL : List Char → List Char → Bool
  | [], _ => true
  | _ :: _, [] => false
  | a :: as, b :: bs => a == b && startsWithL as bs

/-- Is `sub` a contiguous substring of `hay`? (JS `String.prototype.includes`.) -/
def hasSubstr (sub : List Char) : List Char → Bool
  | [] => sub.isEmpty
  | c :: rest => startsWithL sub (c :: rest) || hasSubstr sub rest

/-- JS `hay.includes(sub)`. -/
def jsIncludes (hay sub : String) : Bool := hasSubstr sub.data hay.data

/-- JS `s.toLowerCase()` (ASCII case mapping suffices for the embedded inputs). -/
def jsToLower (s : String) : String := ⟨s.data.map Char.toLower⟩

/-- JS `s.trim()`: strip leading and trailing whitespace. -/
def trimWs (s : String) : String :=
  ⟨((s.data.dropWhile isJsWs).reverse.dropWhile isJsWs).reverse⟩

/-- Worker for `collapseWs`; the flag records whether the previous character
was whitespace (so each maximal whitespace run emits a single space). -/
def collapseWsGo : Bool → List Char → List Char
  | _, [] => []
  | prevWs, c :: rest =>
    if isJsWs c then
      if prevWs then collapseWsGo true rest else ' ' :: collapseWsGo true rest
    else c :: collapseWsGo false rest

/-- JS `s.replace(/\s+/g, " ")`. -/
def collapseWs (s : String) : String := ⟨collapseWsGo false s.data⟩

/-- JS `s.slice(0, n)`. -/
def jsSlice (s : String) (n : Nat) : String := ⟨s.data.take n⟩

/-! ### Regular expressions (Brzozowski derivatives)

`ERROR_CONDITION_PATTERNS` in `analysis-constants.ts` is a list of JS regexes
used via `pattern.test(string)` — an unanchored search. We embed a small regex
syntax, a derivative-based full matcher, and wrap patterns in `.*`/`.*` (with
an unrestricted any-character class) to obtain search semantics. -/

inductive Rx where
  | eps
  | fail
  | cls (p : Char → Bool)
  | cat (a b : Rx)
  | alt (a b : Rx)
  | star (a : Rx)

/-- Does the regex accept the empty string? -/
def Rx.nullable : Rx → Bool
  | .eps => true
  | .fail => false
  | .cls _ => false
  | .cat a b => a.nullable && b.nullable
  | .alt a b => a.nullable || b.nullable
  | .star _ => true

/-- Brzozowski derivative of a regex by one character. -/
def Rx.deriv : Rx → Char → Rx
  | .eps, _ => .fail
  | .fail, _ => .fail
  | .cls p, c => if p c then .eps else .fail
  | .cat a b, c =>
    if a.nullable then .alt (.cat (a.deriv c) b) (b.deriv c)
    else .cat (a.deriv c) b
  | .alt a b, c => .alt (a.deriv c) (b.deriv c)
  | .star a, c => .cat (a.deriv c) (.star a)

/-- Full match of a regex against a character list. -/
def rxMatch (r : Rx) (l : List Char) : Bool := (l.foldl Rx.deriv r).nullable

/-- Literal string regex. -/
def rxLit (s : String) : Rx :=
  s.data.foldr (fun c r => Rx.cat (Rx.cls (fun d => d == c)) r) Rx.eps

/-- JS `.` (any character except line terminators). -/
def rxDot : Rx := Rx.cls (fun c => c != '\n' && c != '\r')

/-- JS `\w` = `[A-Za-z0-9_]`. -/
def rxWord : Rx := Rx.cls (fun c => c.isAlphanum || c == '_')

/-- JS `\s` character class. -/
def rxWs : Rx := Rx.cls isJsWs

/-- JS `["']` character class (double quote or apostrophe, code point 39). -/
def rxQuote : Rx := Rx.cls (fun c => c == '"' || c.toNat == 39)

/-- `r?`. -/
def rxOpt (r : Rx) : Rx := Rx.alt Rx.eps r

/-- `r+`. -/
def rxPlus (r : Rx) : Rx := Rx.cat r (Rx.star r)

/-- Unanchored `pattern.test(s)`: some substring of `s` matches `r`. -/
def rxTest (r : Rx) (s : String) : Bool :=
  let anyStar := Rx.star (Rx.cls (fun _ => true))
  rxMatch (Rx.cat anyStar (Rx.cat r anyStar)) s.data

/-- `/===?\s*/` followed by a literal, shared by several patterns below. -/
def rxEqEq (tail : Rx) : Rx :=
  Rx.cat (rxLit "==") (Rx.cat (rxOpt (Rx.cls (fun c => c == '='))) (Rx.cat (Rx.star rxWs) tail))

/-- `/!==?\s*/` followed by a literal. -/
def rxBangEq (tail : Rx) : Rx :=
  Rx.cat (rxLit "!=") (Rx.cat (rxOpt (Rx.cls (fun c => c == '='))) (Rx.cat (Rx.star rxWs) tail))

/-- `ERROR_CONDITION_PATTERNS` from `analysis-constants.ts`, in source order. -/
def ERROR_CONDITION_PATTERNS : List Rx :=
  [ -- /!.*\w+/
    Rx.cat (Rx.cls (fun c => c == '!')) (Rx.cat (Rx.star rxDot) (rxPlus rxWord)),
    -- /.*===?\s*null/
    Rx.cat (Rx.star rxDot) (rxEqEq (rxLit "null")),
    -- /.*===?\s*undefined/
    Rx.cat (Rx.star rxDot) (rxEqEq (rxLit "undefined")),
    -- /.*!==?\s*null/
    Rx.cat (Rx.star rxDot) (rxBangEq (rxLit "null")),
    -- /.*!==?\s*undefined/
    Rx.cat (Rx.star rxDot) (rxBangEq (rxLit "undefined")),
    -- /!.*\.length/
    Rx.cat (Rx.cls (fun c => c == '!')) (Rx.cat (Rx.star rxDot) (rxLit ".length")),
    -- /.*\.length\s*===?\s*0/
    Rx.cat (Rx.star rxDot) (Rx.cat (rxLit ".length") (Rx.cat (Rx.star rxWs) (rxEqEq (rxLit "0")))),
    -- /.*\.length\s*<\s*1/
    Rx.cat (Rx.star rxDot)
      (Rx.cat (rxLit ".length")
        (Rx.cat (Rx.star rxWs) (Rx.cat (rxLit "<") (Rx.cat (Rx.star rxWs) (rxLit "1"))))),
    -- /!.*\./
    Rx.cat (Rx.cls (fun c => c == '!')) (Rx.cat (Rx.star rxDot) (Rx.cls (fun c => c == '.'))),
    -- /.*===?\s*false/
    Rx.cat (Rx.star rxDot) (rxEqEq (rxLit "false")),
    -- /.*===?\s*""/
    Rx.cat (Rx.star rxDot) (rxEqEq (rxLit "\"\"")),
    -- /.*===?\s*0/
    Rx.cat (Rx.star rxDot) (rxEqEq (rxLit "0")),
    -- /.*\.isEmpty\(\)/
    Rx.cat (Rx.star rxDot) (rxLit ".isEmpty()"),
    -- /.*\.isValid\(\)\s*===?\s*false/
    Rx.cat (Rx.star rxDot) (Rx.cat (rxLit ".isValid()") (Rx.cat (Rx.star rxWs) (rxEqEq (rxLit "false")))),
    -- /.*\.hasError/
    Rx.cat (Rx.star rxDot) (rxLit ".hasError"),
    -- /.*\.isInvalid/
    Rx.cat (Rx.star rxDot) (rxLit ".isInvalid"),
    -- /typeof\s+.*\s*!==?\s*["'].*["']/
    Rx.cat (rxLit "typeof")
      (Rx.cat (rxPlus rxWs)
        (Rx.cat (Rx.star rxDot)
          (Rx.cat (Rx.star rxWs)
            (rxBangEq (Rx.cat rxQuote (Rx.cat (Rx.star rxDot) rxQuote)))))),
    -- /.*instanceof\s+.*\s*===?\s*false/
    Rx.cat (Rx.star rxDot)
      (Rx.cat (rxLit "instanceof")
        (Rx.cat (rxPlus rxWs)
          (Rx.cat (Rx.star rxDot) (Rx.cat (Rx.star rxWs) (rxEqEq (rxLit "false")))))) ]

/-! ### Analysis constants (`analysis-constants.ts`) -/

structure ComplexityThresholds where
  SIMPLE_MAX : Nat
  MEDIUM_MAX : Nat

def COMPLEXITY_THRESHOLDS : ComplexityThresholds := { SIMPLE_MAX := 3, MEDIUM_MAX := 7 }

/-! ### AST model

The analyzers consume a ts-morph `MethodDeclaration` through
`getDescendantsOfKind`, `getParent` chains, and `getText`. We model the
statement/expression shapes those traversals distinguish. Condition, header,
and leaf texts carry the raw source text the code inspects; `renderAst`
reassembles a node's `getText()` from them. -/

/-- Callee shape of a call expression (`this.dep.member(...)` vs anything else). -/
inductive CallTarget where
  | propAcc (objText name : String)
  | otherT (text : String)
deriving DecidableEq

inductive Ast where
  | ifS (cond : String) (thenB elseB : List Ast)
  | forS (header : String) (body : List Ast)
  | whileS (cond : String) (body : List Ast)
  | switchS (disc : String) (body : List Ast)
  | tryS (tryB : List Ast) (catchB : Option (List Ast)) (finB : Option (List Ast))
  | throwS (newInfo : Option (String × Option String))
  | callS (target : CallTarget) (args : List Ast)
  | awaitE (e : Ast)
  | stmtOther (text : String)

/-- A `throwS` carries `some (ctorName, firstStringLitArg?)` for
`throw new Ctor("msg")`, and `none` when the thrown expression is not a
`new` expression with an identifier callee. -/
def isIfNode : Ast → Bool
  | .ifS .. => true
  | _ => false

def isForNode : Ast → Bool
  | .forS .. => true
  | _ => false

def isWhileNode : Ast → Bool
  | .whileS .. => true
  | _ => false

def isSwitchNode : Ast → Bool
  | .switchS .. => true
  | _ => false

def isTryNode : Ast → Bool
  | .tryS .. => true
  | _ => false

def isThrowNode : Ast → Bool
  | .throwS .. => true
  | _ => false

def isCallNode : Ast → Bool
  | .callS .. => true
  | _ => false

def isAwaitNode : Ast → Bool
  | .awaitE .. => true
  | _ => false

mutual

/-- Pre-order list of a node and all its descendants
(ts-morph document order). -/
def nodesOf : Ast → List Ast
  | .ifS c t e => .ifS c t e :: (nodesOfList t ++ nodesOfList e)
  | .forS h b => .forS h b :: nodesOfList b
  | .whileS c b => .whileS c b :: nodesOfList b
  | .switchS d b => .switchS d b :: nodesOfList b
  | .tryS tb cb fb =>
    .tryS tb cb fb ::
      (nodesOfList tb ++
        (match cb with
         | some l => nodesOfList l
         | none => []) ++
        (match fb with
         | some l => nodesOfList l
         | none => []))
  | .throwS i => [.throwS i]
  | .callS t args => .callS t args :: nodesOfList args
  | .awaitE e => .awaitE e :: nodesOf e
  | .stmtOther s => [.stmtOther s]

def nodesOfList : List Ast → List Ast
  | [] => []
  | a :: rest => nodesOf a ++ nodesOfList rest

end

/-- `method.getDescendantsOfKind(kind).length` for a statement kind. -/
def countKind (p : Ast → Bool) (body : List Ast) : Nat :=
  ((nodesOfList body).filter p).length

/-- Ancestor-chain entry, as inspected by `calculateNestingLevel` and
`getParentContext` (only the syntax kind, plus the guard text of an `if`,
matter; `catchA` marks the `CatchClause` node between a `try` and the
statements of its catch block). -/
inductive Anc where
  | ifA (cond : String)
  | forA
  | whileA
  | switchA
  | tryA
  | catchA
  | otherA
deriving DecidableEq

mutual

/-- Pre-order traversal paired with the ancestor chain (nearest first),
stopping at the method boundary (the chain of a top-level statement is `[]`). -/
def nodesCtx (anc : List Anc) : Ast → List (Ast × List Anc)
  | .ifS c t e =>
    (.ifS c t e, anc) ::
      (nodesCtxList (.ifA c :: anc) t ++ nodesCtxList (.ifA c :: anc) e)
  | .forS h b => (.forS h b, anc) :: nodesCtxList (.forA :: anc) b
  | .whileS c b => (.whileS c b, anc) :: nodesCtxList (.whileA :: anc) b
  | .switchS d b => (.switchS d b, anc) :: nodesCtxList (.switchA :: anc) b
  | .tryS tb cb fb =>
    (.tryS tb cb fb, anc) ::
      (nodesCtxList (.tryA :: anc) tb ++
        (match cb with
         | some l => nodesCtxList (.catchA :: .tryA :: anc) l
         | none => []) ++
        (match fb with
         | some l => nodesCtxList (.tryA :: anc) l
         | none => []))
  | .throwS i => [(.throwS i, anc)]
  | .callS t args => (.callS t args, anc) :: nodesCtxList (.otherA :: anc) args
  | .awaitE e => (.awaitE e, anc) :: nodesCtx (.otherA :: anc) e
  | .stmtOther s => [(.stmtOther s, anc)]

def nodesCtxList (anc : List Anc) : List Ast → List (Ast × List Anc)
  | [] => []
  | a :: rest => nodesCtx anc a ++ nodesCtxList anc rest

end

/-- `calculateNestingLevel`: count enclosing if/try/for/while/switch
statements up to the method boundary. -/
def calculateNestingLevel (anc : List Anc) : Nat :=
  anc.countP (fun a =>
    match a with
    | .ifA _ => true
    | .forA => true
    | .whileA => true
    | .switchA => true
    | .tryA => true
    | _ => false)

/-- Method declaration: name, modifiers, parameter names, body statements. -/
structure MethodDecl where
  name : String
  isPrivate : Bool := false
  isAsync : Bool := false
  params : List String := []
  body : List Ast

mutual

/-- Reassemble a node's source text (`node.getText()`), up to layout. The
analyzers only probe this text with `includes`, so brace/newline layout is
immaterial; block bodies are joined with `; `. -/
def renderAst : Ast → String
  | .ifS c t e =>
    "if (" ++ c ++ ") " ++ renderList t ++
      (match e with
       | [] => ""
       | x :: rest => " else " ++ renderList (x :: rest))
  | .forS h b => "for (" ++ h ++ ") " ++ renderList b
  | .whileS c b => "while (" ++ c ++ ") " ++ renderList b
  | .switchS d b => "switch (" ++ d ++ ") " ++ renderList b
  | .tryS tb cb fb =>
    "try " ++ renderList tb ++
      (match cb with
       | some l => " catch (error) " ++ renderList l
       | none => "") ++
      (match fb with
       | some l => " finally " ++ renderList l
       | none => "")
  | .throwS (some (t, some m)) => "throw new " ++ t ++ "(\"" ++ m ++ "\")"
  | .throwS (some (t, none)) => "throw new " ++ t ++ "()"
  | .throwS none => "throw error"
  | .callS (.propAcc obj n) args => obj ++ "." ++ n ++ "(" ++ renderList args ++ ")"
  | .callS (.otherT t) args => t ++ "(" ++ renderList args ++ ")"
  | .awaitE e => "await " ++ renderAst e
  | .stmtOther s => s

def renderList : List Ast → String
  | [] => ""
  | [a] => renderAst a
  | a :: b :: rest => renderAst a ++ "; " ++ renderList (b :: rest)

end

/-- `method.getText()`: modifiers, signature and body text. -/
def renderMethod (m : MethodDecl) : String :=
  (if m.isAsync then "async " else "") ++ m.name ++ "(" ++
    String.intercalate ", " m.params ++ ") " ++ renderList m.body

/-- `f` applied with a running index (JS `forEach((x, index) => ...)`). -/
def mapIdxGo (f : Nat → α → β) (i : Nat) : List α → List β
  | [] => []
  | x :: xs => f i x :: mapIdxGo f (i + 1) xs

/-! ### Error path analyzer (`error-path-analyzer.ts`) -/

inductive Severity where
  | low
  | medium
  | high
  | critical
deriving DecidableEq

inductive ErrorCategory where
  | validation
  | businessLogic
  | system
  | security
deriving DecidableEq

/-- `ErrorPath` from `method-flow-analyzer.ts`. `propagatesTo` and `dependsOn`
are optional in the interface; `none` models an omitted key. -/
structure ErrorPath where
  condition : String
  errorType : String
  errorMessage : Option String := none
  isExpected : Bool
  severity : Severity
  category : ErrorCategory
  recoverable : Bool
  propagatesTo : Option (List String) := none
  nestedLevel : Nat
  dependsOn : Option (List String) := none
deriving DecidableEq

/-- `extractErrorMessage`: the first argument of `throw new Ctor("msg")` when
it is a string literal, else `undefined`. -/
def extractErrorMessage (newInfo : Option (String × Option String)) : Option String :=
  match newInfo with
  | some (_, m) => m
  | none => none

/-- `extractErrorType`: the constructed error's callee identifier,
defaulting to `"Error"`. -/
def extractErrorType (newInfo : Option (String × Option String)) : String :=
  match newInfo with
  | some (t, _) => t
  | none => "Error"

/-- `categorizeError`: keyword scan over lower-cased `type ++ " " ++ message`. -/
def categorizeError (errorType : String) (errorMessage : Option String) : ErrorCategory :=
  let errorText := jsToLower (errorType ++ " " ++ errorMessage.getD "")
  if jsIncludes errorText "validation" || jsIncludes errorText "invalid" ||
      jsIncludes errorText "required" then .validation
  else if jsIncludes errorText "permission" || jsIncludes errorText "unauthorized" ||
      jsIncludes errorText "forbidden" then .security
  else if jsIncludes errorText "not found" || jsIncludes errorText "exists" ||
      jsIncludes errorText "business" then .businessLogic
  else .system

/-- `assessErrorSeverity` (explicit-throw pass). -/
def assessErrorSeverity (errorType : String) (category : ErrorCategory) : Severity :=
  if category = .security then .critical
  else if category = .system ∧ jsIncludes errorType "Database" then .high
  else if category = .businessLogic then .medium
  else if category = .validation then .low
  else .medium

/-- `isRecoverableError` (explicit-throw pass). -/
def isRecoverableError (errorType : String) (category : ErrorCategory) : Bool :=
  if category = .validation then true
  else if category = .businessLogic then true
  else if category = .security then false
  else if jsIncludes errorType "Fatal" || jsIncludes errorType "Critical" then false
  else true

/-- `getParentContext`: walk the ancestor chain for a meaningful context. -/
def getParentContext : List Anc → Option String
  | [] => none
  | .ifA cond :: rest =>
    if cond ≠ "" then
      if jsIncludes cond "!" || jsIncludes cond "null" || jsIncludes cond "undefined" then
        some "null check failed"
      else if jsIncludes cond "length" ∧ jsIncludes cond "0" then
        some "empty collection"
      else if jsIncludes cond "===" || jsIncludes cond "!==" then
        some "equality check failed"
      else
        some ("condition check: " ++ jsSlice cond 30 ++ "...")
    else getParentContext rest
  | .catchA :: _ => some "exception caught"
  | _ :: rest => getParentContext rest

/-- `generateSpecificCondition`: message keywords, then type keywords, then
the enclosing context, then an index-suffixed generic label. -/
def generateSpecificCondition (errorMessage : Option String) (errorType : String)
    (anc : List Anc) (index : Nat) : String :=
  let fromMessage : Option String :=
    match errorMessage with
    | none => none
    | some em =>
      let message := jsToLower em
      if jsIncludes message "required" || jsIncludes message "missing" then
        some "missing required parameter"
      else if jsIncludes message "invalid" || jsIncludes message "bad" then
        some "invalid input provided"
      else if jsIncludes message "not found" || jsIncludes message "does not exist" then
        some "entity not found"
      else if jsIncludes message "unauthorized" || jsIncludes message "permission" then
        some "unauthorized access"
      else if jsIncludes message "duplicate" || jsIncludes message "already exists" then
        some "duplicate entity"
      else if jsIncludes message "validation" then
        some "validation error"
      else if jsIncludes message "positive" || jsIncludes message "negative" then
        some "value validation error"
      else if jsIncludes message "format" || jsIncludes message "email" then
        some "format validation error"
      else none
  match fromMessage with
  | some c => c
  | none =>
    let ty := jsToLower errorType
    let fromType : Option String :=
      if jsIncludes ty "validation" then some "validation failure"
      else if jsIncludes ty "notfound" then some "resource not found"
      else if jsIncludes ty "unauthorized" then some "access denied"
      else if jsIncludes ty "conflict" then some "resource conflict"
      else none
    match fromType with
    | some c => c
    | none =>
      match getParentContext anc with
      | some ctx => ctx
      | none =>
        let suffix := if index > 0 then " (" ++ toString (index + 1) ++ ")" else ""
        "explicit throw" ++ suffix

/-- The method's throw statements in document order, with ancestor chains. -/
def methodThrows (body : List Ast) : List (Option (String × Option String) × List Anc) :=
  (nodesCtxList [] body).filterMap (fun x =>
    match x.1 with
    | .throwS info => some (info, x.2)
    | _ => none)

/-- The `ErrorPath` built for one throw statement by `analyzeThrowStatements`. -/
def mkThrowPath (index : Nat) (ti : Option (String × Option String) × List Anc) : ErrorPath :=
  let errorMessage := extractErrorMessage ti.1
  let errorType := extractErrorType ti.1
  let nestedLevel := calculateNestingLevel ti.2
  let category := categorizeError errorType errorMessage
  let severity := assessErrorSeverity errorType category
  let condition := generateSpecificCondition errorMessage errorType ti.2 index
  { condition := condition
    errorType := errorType
    errorMessage := errorMessage
    isExpected := true
    severity := severity
    category := category
    recoverable := isRecoverableError errorType category
    nestedLevel := nestedLevel
    propagatesTo := some ["caller"]
    dependsOn := some [] }

/-- `analyzeThrowStatements` (second revision, with `generateSpecificCondition`). -/
def analyzeThrowStatements (m : MethodDecl) : List ErrorPath :=
  mapIdxGo mkThrowPath 0 (methodThrows m.body)

/-- `isErrorCondition`: regex library first, then error-ish keywords. -/
def isErrorCondition (condition : String) : Bool :=
  let cleanCondition := collapseWs (trimWs condition)
  let matchesPattern := ERROR_CONDITION_PATTERNS.any (fun pattern => rxTest pattern cleanCondition)
  if matchesPattern then true
  else
    let errorKeywords := ["invalid", "error", "fail", "missing", "empty", "null", "undefined"]
    errorKeywords.any (fun keyword => jsIncludes (jsToLower cleanCondition) keyword)

/-- `inferErrorTypeFromCondition`. -/
def inferErrorTypeFromCondition (condition : String) : String :=
  let lowerCondition := jsToLower condition
  if jsIncludes lowerCondition "null" || jsIncludes lowerCondition "undefined" then
    "NullReferenceError"
  else if jsIncludes lowerCondition "length" || jsIncludes lowerCondition "empty" then
    "ValidationError"
  else if jsIncludes lowerCondition "valid" || jsIncludes lowerCondition "invalid" then
    "ValidationError"
  else "ValidationError"

/-- `categorizeErrorCondition`. -/
def categorizeErrorCondition (condition : String) : ErrorCategory :=
  let conditionLower := jsToLower condition
  if jsIncludes conditionLower "null" || jsIncludes conditionLower "undefined" ||
      jsIncludes conditionLower "empty" then .validation
  else if jsIncludes conditionLower "permission" || jsIncludes conditionLower "role" then
    .security
  else if jsIncludes conditionLower "exist" || jsIncludes conditionLower "found" then
    .businessLogic
  else .system

/-- `assessConditionSeverity` (conditional-guard pass). -/
def assessConditionSeverity (condition : String) (category : ErrorCategory) : Severity :=
  if category = .security then .high
  else if jsIncludes condition "!" ∧ category = .businessLogic then .medium
  else .low

/-- The method's if-statement guards in document order, with ancestor chains. -/
def methodIfConds (body : List Ast) : List (String × List Anc) :=
  (nodesCtxList [] body).filterMap (fun x =>
    match x.1 with
    | .ifS cond _ _ => some (cond, x.2)
    | _ => none)

/-- The `ErrorPath` built for one accepted guard by `analyzeConditionalErrors`
(`recoverable` is always `true` here). -/
def mkCondPath (ci : String × List Anc) : ErrorPath :=
  let category := categorizeErrorCondition ci.1
  { condition := ci.1
    errorType := inferErrorTypeFromCondition ci.1
    isExpected := true
    severity := assessConditionSeverity ci.1 category
    category := category
    recoverable := true
    nestedLevel := calculateNestingLevel ci.2
    propagatesTo := some ["caller"]
    dependsOn := some [] }

/-- `analyzeConditionalErrors` keeps exactly the guards that
`isErrorCondition` accepts. -/
def analyzeConditionalErrors (m : MethodDecl) : List ErrorPath :=
  (methodIfConds m.body).filterMap (fun ci =>
    if isErrorCondition ci.1 then some (mkCondPath ci) else none)

/-- The method's try statements in document order, with ancestor chains. -/
def methodTries (body : List Ast) :
    List ((List Ast × Option (List Ast) × Option (List Ast)) × List Anc) :=
  (nodesCtxList [] body).filterMap (fun x =>
    match x.1 with
    | .tryS tb cb fb => some ((tb, cb, fb), x.2)
    | _ => none)

/-- `analyzeTryCatchBlocks`: one "try-catch block" path per try with a catch
clause; severity depends on nesting, recoverability on a finally block. -/
def analyzeTryCatchBlocks (m : MethodDecl) : List ErrorPath :=
  (methodTries m.body).filterMap (fun ti =>
    match ti.1.2.1 with
    | none => none
    | some _ =>
      let nestedLevel := calculateNestingLevel ti.2
      let hasFinally := ti.1.2.2.isSome
      let isNested := nestedLevel > 1
      some
        { condition := "try-catch block"
          errorType := "CaughtError"
          isExpected := true
          severity := if isNested then .high else .medium
          category := .system
          recoverable := hasFinally
          nestedLevel := nestedLevel
          propagatesTo := some ["caller"]
          dependsOn := some [] })

/-- `analyzeAsyncErrorPaths`: a rejection path when the method text mentions
a rejection call (`dependsOn` is omitted by this pass). -/
def analyzeAsyncErrorPaths (m : MethodDecl) : List ErrorPath :=
  let methodText := renderMethod m
  if jsIncludes methodText "reject" || jsIncludes methodText "Promise.reject" then
    [ { condition := "promise rejection"
        errorType := "PromiseRejection"
        isExpected := true
        severity := .medium
        category := .system
        recoverable := true
        nestedLevel := 0
        propagatesTo := some ["caller"] } ]
  else []

/-- `analyzeErrorPaths`: concatenation of the four passes (the async pass
only for methods with the async modifier). -/
def analyzeErrorPaths (m : MethodDecl) : List ErrorPath :=
  analyzeThrowStatements m ++ analyzeConditionalErrors m ++ analyzeTryCatchBlocks m ++
    (if m.isAsync then analyzeAsyncErrorPaths m else [])

/-! ### Method flow analyzer (`method-flow-analyzer.ts`) -/

inductive Complexity where
  | simple
  | medium
  | complex
deriving DecidableEq

inductive FlowType where
  | linear
  | conditional
  | loop
  | asyncChain
  | errorProne
deriving DecidableEq

/-- `calculateComplexity`: 1 + flat count of if/for/while/switch descendants,
classified by `COMPLEXITY_THRESHOLDS`. -/
def calculateComplexity (m : MethodDecl) : Complexity :=
  let complexity := 1 + countKind isIfNode m.body + countKind isForNode m.body +
    countKind isWhileNode m.body + countKind isSwitchNode m.body
  if complexity ≤ COMPLEXITY_THRESHOLDS.SIMPLE_MAX then .simple
  else if complexity ≤ COMPLEXITY_THRESHOLDS.MEDIUM_MAX then .medium
  else .complex

/-- `hasLoops` in `determineFlowType`: for-statement descendants only. -/
def hasLoopsB (m : MethodDecl) : Bool := decide (countKind isForNode m.body > 0)

/-- `hasConditionals` in `determineFlowType`. -/
def hasConditionalsB (m : MethodDecl) : Bool := decide (countKind isIfNode m.body > 0)

/-- `hasAwait` in `determineFlowType`. -/
def hasAwaitB (m : MethodDecl) : Bool := decide (countKind isAwaitNode m.body > 0)

/-- `hasErrorHandling` in `determineFlowType` (try-statement descendants). -/
def hasErrorHandlingB (m : MethodDecl) : Bool := decide (countKind isTryNode m.body > 0)

/-- `getDescendantsOfKind(SyntaxKind.CallExpression).length`. -/
def callExprCount (m : MethodDecl) : Nat := countKind isCallNode m.body

/-- `determineFlowType`, with the source's guard order. -/
def determineFlowType (m : MethodDecl) : FlowType :=
  if hasErrorHandlingB m && hasAwaitB m then .errorProne
  else if hasAwaitB m && decide (callExprCount m > 3) then .asyncChain
  else if hasLoopsB m then .loop
  else if hasConditionalsB m then .conditional
  else .linear

/-! ### Dependency analyzer (`dependency-analyzer.ts`) -/

/-- `DependencyUsage`. -/
structure DependencyUsage where
  methodName : String
  calls : List String
  isConditional : Bool
  errorHandling : Bool
deriving DecidableEq

/-- Class model: constructor parameters (name, declared type text) and methods. -/
structure ClassDecl where
  name : String
  ctorParams : List (String × String) := []
  methods : List MethodDecl

/-- First-occurrence deduplication (`[...new Set(xs)]`), with an accumulator
of already-seen elements. -/
def dedupFirstAux (seen : List String) : List String → List String
  | [] => []
  | x :: xs =>
    if seen.contains x then dedupFirstAux seen xs
    else x :: dedupFirstAux (x :: seen) xs

/-- `findDependencyCalls`: member names of calls whose callee is a property
access on exactly `this.<depName>`, deduplicated. -/
def findDependencyCalls (m : MethodDecl) (depName : String) : List String :=
  dedupFirstAux []
    ((nodesOfList m.body).filterMap (fun a =>
      match a with
      | .callS (.propAcc objText n) _ =>
        if objText == "this." ++ depName then some n else none
      | _ => none))

/-- `hasConditionalCalls`: some if-statement's text mentions `this.<depName>`. -/
def hasConditionalCalls (m : MethodDecl) (depName : String) : Bool :=
  (nodesOfList m.body).any (fun a =>
    match a with
    | .ifS .. => jsIncludes (renderAst a) ("this." ++ depName)
    | _ => false)

/-- `hasErrorHandling` from `dependency-analyzer.ts`: a try statement whose
text mentions `this.<depName>`, or the presence of ANY throw statement. -/
def hasErrorHandling (m : MethodDecl) (depName : String) : Bool :=
  let hasTryCatch := (nodesOfList m.body).any (fun a =>
    match a with
    | .tryS .. => jsIncludes (renderAst a) ("this." ++ depName)
    | _ => false)
  let hasThrow := decide (countKind isThrowNode m.body > 0)
  hasTryCatch || hasThrow

/-- `analyzeDependencyUsage`: one `DependencyUsage` per method that calls
the dependency at least once. -/
def analyzeDependencyUsage (classDecl : ClassDecl) (depName : String) : List DependencyUsage :=
  classDecl.methods.filterMap (fun method =>
    let calls := findDependencyCalls method depName
    if calls.isEmpty then none
    else
      some
        { methodName := method.name
          calls := calls
          isConditional := hasConditionalCalls method depName
          errorHandling := hasErrorHandling method depName })

/-- `DependencyAnalysis` (the `type` field is the declared type text). -/
structure DependencyAnalysis where
  name : String
  typeText : String
  usage : List DependencyUsage
  mockStrategy : String
  commonMethods : List String
deriving DecidableEq

/-! ### Test scenario generator (`test-scenario-generator.ts`) -/

structure SideEffect where
  effectType : String
  description : String
  needsMocking : Bool
deriving DecidableEq

/-- `MethodFlowAnalysis` (the analysis record consumed by the generator). -/
structure MethodFlowAnalysis where
  name : String
  complexity : Complexity
  flowType : FlowType
  dependencyUsage : List String
  errorPaths : List ErrorPath
  sideEffects : List SideEffect := []
  testComplexity : Nat := 1
  suggestedTestCases : List String := []
deriving DecidableEq

/-- One entry of `TestScenario.scenarios`; `stype` is the scenario `type`
literal ("success" / "error" / "edge-case"). -/
structure ScenarioItem where
  name : String
  stype : String
  setup : List String
  expectations : List String
  priority : Nat
deriving DecidableEq

structure TestScenario where
  methodName : String
  scenarios : List ScenarioItem
deriving DecidableEq

/-- One character of `JSON.stringify` string escaping. -/
def jsonEscapeChar (c : Char) : String :=
  if c == '"' then "\\\""
  else if c == '\\' then "\\\\"
  else if c == '\n' then "\\n"
  else if c == '\t' then "\\t"
  else if c == '\r' then "\\r"
  else String.singleton c

/-- `JSON.stringify` of a string array (suffices for the key construction). -/
def jsonStringifyArr (xs : List String) : String :=
  "[" ++
    String.intercalate ","
      (xs.map (fun s => "\"" ++ String.join (s.data.map jsonEscapeChar) ++ "\"")) ++
    "]"

/-- `getScenarioKey`: `name|type|JSON(setup)|JSON(expectations)`. -/
def getScenarioKey (scenario : ScenarioItem) : String :=
  scenario.name ++ "|" ++ scenario.stype ++ "|" ++ jsonStringifyArr scenario.setup ++ "|" ++
    jsonStringifyArr scenario.expectations

/-- `generateSuccessSetup`: one mock line per common method of each used
dependency, then the expected-result line. -/
def generateSuccessSetup (method : MethodFlowAnalysis) (dependencies : List DependencyAnalysis) :
    List String :=
  (method.dependencyUsage.flatMap (fun depName =>
    match dependencies.find? (fun d => d.name == depName) with
    | some dep =>
      dep.commonMethods.map (fun methodName =>
        depName ++ "Mock." ++ methodName ++ ".resolves(expectedResult)")
    | none => [])) ++
    ["const expectedResult = fake()"]

/-- The `forEach`-with-dedup loop shared by the error and edge-case sections:
append `mk it` unless its key is already in `seen`. -/
def addScenarios (mk : α → ScenarioItem) :
    List α → List ScenarioItem → List String → List ScenarioItem × List String
  | [], acc, seen => (acc, seen)
  | it :: rest, acc, seen =>
    let sc := mk it
    let key := getScenarioKey sc
    if seen.contains key then addScenarios mk rest acc seen
    else addScenarios mk rest (acc ++ [sc]) (key :: seen)

/-- `generateMethodScenarios`: success scenario, deduplicated error scenarios,
deduplicated null-parameter edge scenarios. -/
def generateMethodScenarios (method : MethodFlowAnalysis)
    (dependencies : List DependencyAnalysis) (methodDecl : Option MethodDecl) :
    List ScenarioItem :=
  let successScenario : ScenarioItem :=
    { name := method.name ++ " success"
      stype := "success"
      setup := generateSuccessSetup method dependencies
      expectations := ["expect(result).toEqual(expectedResult)"]
      priority := 5 }
  let seen0 := [getScenarioKey successScenario]
  let errStep := addScenarios
    (fun (errorPath : ErrorPath) =>
      { name := method.name ++ " error - " ++ errorPath.condition
        stype := "error"
        setup := ["Setup condition: " ++ errorPath.condition]
        expectations := ["should throw " ++ errorPath.errorType]
        priority := 4 })
    method.errorPaths [successScenario] seen0
  let edgeStep :=
    match methodDecl with
    | none => errStep
    | some md =>
      addScenarios
        (fun (paramName : String) =>
          { name := method.name ++ " with null " ++ paramName
            stype := "edge-case"
            setup := ["const " ++ paramName ++ " = null"]
            expectations := ["expect(() => method(null)).toThrow()"]
            priority := 3 })
        md.params errStep.1 errStep.2
  edgeStep.1

/-- `generateTestScenarios`: per-method scenario lists (the method
declaration is looked up by name in the class). -/
def generateTestScenarios (methods : List MethodFlowAnalysis)
    (dependencies : List DependencyAnalysis) (classDecl : ClassDecl) : List TestScenario :=
  methods.map (fun method =>
    { methodName := method.name
      scenarios := generateMethodScenarios method dependencies
        (classDecl.methods.find? (fun md => md.name == method.name)) })

/-! ### Session / plan / progress tracker (`session-state-manager.ts`)

JS `Map`s become association lists in insertion order (`Map.set` replaces the
value of an existing key in place, else appends); `new Date()` timestamps are
passed in as explicit `Nat` arguments; the randomly generated session id is
passed as an explicit argument to `createSession`. -/

inductive Priority where
  | high
  | medium
  | low
deriving DecidableEq

/-- `MethodTestStatus`. -/
structure MethodTestStatus where
  methodName : String
  complexity : Nat
  hasTests : Bool
  testPath : Option String := none
  priority : Priority
  dependencies : List String
  errorCount : Nat
  lastUpdated : Option Nat := none
deriving DecidableEq

/-- `TestGenerationSession`. -/
structure TestGenerationSession where
  sessionId : String
  filePath : String
  className : String
  testType : String
  outputPath : String
  methods : List MethodTestStatus
  completedMethods : List String
  currentMethod : Option String := none
  totalMethods : Nat
  createdAt : Nat
  lastActivity : Nat
deriving DecidableEq

/-- `TestPhase` (the `priority` tag and estimated time are literal strings). -/
structure TestPhase where
  phaseNumber : Nat
  name : String
  methods : List String
  description : String
  priority : String
  estimatedTime : String
  completed : Bool
deriving DecidableEq

/-- `TestGenerationPlan`. -/
structure TestGenerationPlan where
  sessionId : String
  phases : List TestPhase
  currentPhase : Nat
  estimatedTime : String
  methodology : String
deriving DecidableEq

/-- The two private maps of `SessionStateManager`. -/
structure SessionStateManager where
  sessions : List (String × TestGenerationSession) := []
  plans : List (String × TestGenerationPlan) := []
deriving DecidableEq

/-- `Map.get`. -/
def lookupAssoc (l : List (String × α)) (k : String) : Option α :=
  match l with
  | [] => none
  | (k', v) :: rest => if k' = k then some v else lookupAssoc rest k

/-- `Map.set`: replace in place, else append. -/
def setAssoc (l : List (String × α)) (k : String) (v : α) : List (String × α) :=
  match l with
  | [] => [(k, v)]
  | (k', v') :: rest => if k' = k then (k, v) :: rest else (k', v') :: setAssoc rest k v

/-- `createSession` (the generated session id and the clock are arguments). -/
def createSession (st : SessionStateManager) (sessionId filePath className testType
    outputPath : String) (methods : List MethodTestStatus) (now : Nat) :
    TestGenerationSession × SessionStateManager :=
  let session : TestGenerationSession :=
    { sessionId := sessionId
      filePath := filePath
      className := className
      testType := testType
      outputPath := outputPath
      methods := methods
      completedMethods := []
      totalMethods := methods.length
      createdAt := now
      lastActivity := now }
  (session, { st with sessions := setAssoc st.sessions sessionId session })

/-- `getSession`. -/
def getSession (st : SessionStateManager) (sessionId : String) :
    Option TestGenerationSession :=
  lookupAssoc st.sessions sessionId

/-- In-place mutation of the first method with the given name
(`session.methods.find(...)` returns the first match, which is then mutated). -/
def updateFirstMethod (name : String) (f : MethodTestStatus → MethodTestStatus) :
    List MethodTestStatus → List MethodTestStatus
  | [] => []
  | m :: rest =>
    if m.methodName = name then f m :: rest
    else m :: updateFirstMethod name f rest

/-- `updateMethodStatus`: `false` when the session or method is unknown; else
set the method's `hasTests`/`testPath`/`lastUpdated`, push the name onto
`completedMethods` when newly tested, and touch `lastActivity`. -/
def updateMethodStatus (st : SessionStateManager) (sessionId methodName : String)
    (hasTests : Bool) (testPath : Option String) (now : Nat) :
    Bool × SessionStateManager :=
  match lookupAssoc st.sessions sessionId with
  | none => (false, st)
  | some session =>
    match session.methods.find? (fun m => m.methodName = methodName) with
    | none => (false, st)
    | some _ =>
      let methods := updateFirstMethod methodName
        (fun m => { m with hasTests := hasTests, testPath := testPath, lastUpdated := some now })
        session.methods
      let completedMethods :=
        if hasTests && !(session.completedMethods.contains methodName) then
          session.completedMethods ++ [methodName]
        else session.completedMethods
      let session' := { session with
        methods := methods
        completedMethods := completedMethods
        lastActivity := now }
      (true, { st with sessions := setAssoc st.sessions sessionId session' })

/-- `priorityOrder` (`high: 3, medium: 2, low: 1`). -/
def priorityOrder : Priority → Nat
  | .high => 3
  | .medium => 2
  | .low => 1

/-- The sort comparator: priority rank descending, then complexity descending. -/
def methodCmp (a b : MethodTestStatus) : Int :=
  let priorityDiff : Int := (priorityOrder b.priority : Int) - (priorityOrder a.priority : Int)
  if priorityDiff ≠ 0 then priorityDiff
  else (b.complexity : Int) - (a.complexity : Int)

/-- Stable insertion step for `sortMethods` (elements strictly preceding `x`
under the comparator stay in front; ties keep original order). -/
def insertSorted (x : MethodTestStatus) : List MethodTestStatus → List MethodTestStatus
  | [] => [x]
  | y :: ys => if methodCmp y x < 0 then y :: insertSorted x ys else x :: y :: ys

/-- Stable comparator sort (JS `Array.prototype.sort` is stable). -/
def sortMethods : List MethodTestStatus → List MethodTestStatus
  | [] => []
  | x :: xs => insertSorted x (sortMethods xs)

/-- `getNextMethod`: among methods without tests, the first after sorting by
priority rank then complexity (both descending); `none` when the session is
unknown or no method lacks tests. -/
def getNextMethod (st : SessionStateManager) (sessionId : String) :
    Option MethodTestStatus :=
  match lookupAssoc st.sessions sessionId with
  | none => none
  | some session =>
    let untestedMethods := session.methods.filter (fun m => !m.hasTests)
    if untestedMethods.isEmpty then none
    else (sortMethods untestedMethods).head?

/-- Result record of `getProgress`. -/
structure ProgressInfo where
  completed : Nat
  total : Nat
  percentage : Nat
  remaining : List String
deriving DecidableEq

/-- `Math.round((completed / total) * 100)` for `total > 0` (round half up). -/
def roundPercent (completed total : Nat) : Nat :=
  (completed * 100 * 2 + total) / (total * 2)

/-- `getProgress`. -/
def getProgress (st : SessionStateManager) (sessionId : String) : Option ProgressInfo :=
  match lookupAssoc st.sessions sessionId with
  | none => none
  | some session =>
    let completed := session.completedMethods.length
    let total := session.totalMethods
    some
      { completed := completed
        total := total
        percentage := if total > 0 then roundPercent completed total else 0
        remaining := (session.methods.filter (fun m => !m.hasTests)).map (·.methodName) }

/-- Phase-1 filter: `priority === "high" || complexity >= 8`. -/
def critP (m : MethodTestStatus) : Bool :=
  m.priority == .high || decide (m.complexity ≥ 8)

/-- Phase-2 filter: `priority === "medium" || (4 <= complexity < 8) ||
dependencies.length > 0`. -/
def medP (m : MethodTestStatus) : Bool :=
  m.priority == .medium || (decide (m.complexity ≥ 4) && decide (m.complexity < 8)) ||
    decide (m.dependencies.length > 0)

/-- Phase-3 filter: `priority === "low" && complexity < 4 &&
dependencies.length === 0`. -/
def simpP (m : MethodTestStatus) : Bool :=
  m.priority == .low && decide (m.complexity < 4) && decide (m.dependencies.length = 0)

/-- `createPhases`: the three filter-based phases, each present only when its
method list is non-empty. -/
def createPhases (methods : List MethodTestStatus) : List TestPhase :=
  let criticalMethods := methods.filter critP
  let mediumMethods := methods.filter medP
  let simpleMethods := methods.filter simpP
  (if criticalMethods.isEmpty then []
   else
     [ { phaseNumber := 1
         name := "Critical Methods"
         methods := criticalMethods.map (·.methodName)
         description := "Test core business logic and high-complexity methods first"
         priority := "critical"
         estimatedTime := toString (criticalMethods.length * 8) ++ "min"
         completed := false } ]) ++
  (if mediumMethods.isEmpty then []
   else
     [ { phaseNumber := 2
         name := "Core Methods"
         methods := mediumMethods.map (·.methodName)
         description := "Test methods with dependencies and moderate complexity"
         priority := "high"
         estimatedTime := toString (mediumMethods.length * 5) ++ "min"
         completed := false } ]) ++
  (if simpleMethods.isEmpty then []
   else
     [ { phaseNumber := 3
         name := "Utility Methods"
         methods := simpleMethods.map (·.methodName)
         description := "Test simple utility and helper methods"
         priority := "medium"
         estimatedTime := toString (simpleMethods.length * 3) ++ "min"
         completed := false } ])

/-- `calculateEstimatedTime`: 8/5/3 base minutes by complexity plus 2 per
dependency, formatted as minutes or hours+minutes. -/
def calculateEstimatedTime (methods : List MethodTestStatus) : String :=
  let totalMinutes := methods.foldl
    (fun total method =>
      let baseTime := if method.complexity ≥ 8 then 8 else if method.complexity ≥ 4 then 5 else 3
      total + baseTime + method.dependencies.length * 2)
    0
  if totalMinutes < 60 then toString totalMinutes ++ "min"
  else toString (totalMinutes / 60) ++ "h " ++ toString (totalMinutes % 60) ++ "min"

/-- `createPlan`. -/
def createPlan (st : SessionStateManager) (sessionId : String)
    (methods : List MethodTestStatus) : TestGenerationPlan × SessionStateManager :=
  let plan : TestGenerationPlan :=
    { sessionId := sessionId
      phases := createPhases methods
      currentPhase := 0
      estimatedTime := calculateEstimatedTime methods
      methodology := "Complexity-driven test generation with dependency analysis" }
  (plan, { st with plans := setAssoc st.plans sessionId plan })

/-- `getPlan`. -/
def getPlan (st : SessionStateManager) (sessionId : String) : Option TestGenerationPlan :=
  lookupAssoc st.plans sessionId

/-- The phase-scan loop of `updatePlanProgress`: find the first phase holding
the method; mark it completed when every one of its methods is in the
session's completed set. Returns the updated phases, the phase index, and
whether the phase completed. -/
def markPhase (sess : Option TestGenerationSession) (completedMethod : String) :
    List TestPhase → Option (List TestPhase × Nat × Bool)
  | [] => none
  | phase :: rest =>
    if phase.methods.contains completedMethod then
      let allMethodsCompleted := phase.methods.all (fun m =>
        match sess with
        | some s => s.completedMethods.contains m
        | none => false)
      let phase' := if allMethodsCompleted then { phase with completed := true } else phase
      some (phase' :: rest, 0, allMethodsCompleted)
    else
      match markPhase sess completedMethod rest with
      | none => none
      | some (rest', i, done) => some (phase :: rest', i + 1, done)

/-- `updatePlanProgress`: `false` when the plan is unknown or the method is in
no phase; advances `currentPhase` when the phase at the pointer completes. -/
def updatePlanProgress (st : SessionStateManager) (sessionId completedMethod : String) :
    Bool × SessionStateManager :=
  match lookupAssoc st.plans sessionId with
  | none => (false, st)
  | some plan =>
    match markPhase (lookupAssoc st.sessions sessionId) completedMethod plan.phases with
    | none => (false, st)
    | some (phases', i, done) =>
      let currentPhase' :=
        if done ∧ i = plan.currentPhase then min (i + 1) (plan.phases.length - 1)
        else plan.currentPhase
      let plan' := { plan with phases := phases', currentPhase := currentPhase' }
      (true, { st with plans := setAssoc st.plans sessionId plan' })

/-- `cleanup`: drop every session (and its plan) idle beyond the retention
window (`lastActivity < now - 3600000` ms). -/
def cleanup (st : SessionStateManager) (now : Nat) : SessionStateManager :=
  let oneHourAgo := now - 60 * 60 * 1000
  let stale := st.sessions.filter (fun p => decide (p.2.lastActivity < oneHourAgo))
  { sessions := st.sessions.filter (fun p => !(decide (p.2.lastActivity < oneHourAgo)))
    plans := st.plans.filter (fun p => !(stale.any (fun q => q.1 = p.1))) }

/-! ### Concrete inputs

Small concrete methods, classes and tracker states used to evaluate the
definitions at specific points. -/

/-- `createUser(email)` guarding emptiness and throwing
`new Error("Email is required")` (the scenario of spec §8). -/
def createUserMethod : MethodDecl :=
  { name := "createUser"
    params := ["email"]
    body := [Ast.ifS "!email" [Ast.throwS (some ("Error", some "Email is required"))] []] }

/-- `findUser(id)` with no throw, guard, try or await. -/
def findUserMethod : MethodDecl :=
  { name := "findUser"
    params := ["id"]
    body := [Ast.stmtOther "return id"] }

/-- The throw-pass error path produced for `createUserMethod`. -/
def createUserThrowPath : ErrorPath :=
  { condition := "missing required parameter"
    errorType := "Error"
    errorMessage := some "Email is required"
    isExpected := true
    severity := .low
    category := .validation
    recoverable := true
    propagatesTo := some ["caller"]
    nestedLevel := 1
    dependsOn := some [] }

/-- The conditional-guard error path produced for `createUserMethod`
(the guard `!email` matches the pattern `/!.*\w+/`). -/
def createUserGuardPath : ErrorPath :=
  { condition := "!email"
    errorType := "ValidationError"
    isExpected := true
    severity := .low
    category := .system
    recoverable := true
    propagatesTo := some ["caller"]
    nestedLevel := 0
    dependsOn := some [] }

/-- A method whose guard text mentions both "role" and "error", so the
conditional pass categorizes it as a security error. -/
def roleGuardMethod : MethodDecl :=
  { name := "checkAccess"
    params := ["user"]
    body := [Ast.ifS "user.roleError" [Ast.stmtOther "return false"] []] }

/-- The (security-categorized) error path produced for `roleGuardMethod`. -/
def roleGuardPath : ErrorPath :=
  { condition := "user.roleError"
    errorType := "ValidationError"
    isExpected := true
    severity := .high
    category := .security
    recoverable := true
    propagatesTo := some ["caller"]
    nestedLevel := 0
    dependsOn := some [] }

/-- A method that throws `new UnauthorizedError("forbidden")`. -/
def secThrowMethod : MethodDecl :=
  { name := "guard"
    body := [Ast.throwS (some ("UnauthorizedError", some "forbidden"))] }

/-- The (security-categorized) throw path produced for `secThrowMethod`. -/
def secThrowPath : ErrorPath :=
  { condition := "access denied"
    errorType := "UnauthorizedError"
    errorMessage := some "forbidden"
    isExpected := true
    severity := .critical
    category := .security
    recoverable := false
    propagatesTo := some ["caller"]
    nestedLevel := 0
    dependsOn := some [] }

/-- A method body with exactly two conditional constructs. -/
def twoIfMethod : MethodDecl :=
  { name := "twoIfs"
    body := [Ast.ifS "a" [] [], Ast.ifS "b" [] []] }

/-- A method body with exactly three conditional constructs. -/
def threeIfMethod : MethodDecl :=
  { name := "threeIfs"
    body := [Ast.ifS "a" [] [], Ast.ifS "b" [] [], Ast.ifS "c" [] []] }

/-- A method with one while-loop and one conditional, no await and no try. -/
def whileIfMethod : MethodDecl :=
  { name := "scan"
    body := [Ast.whileS "i < n" [Ast.ifS "x > 0" [Ast.stmtOther "x = x - 1"] []]] }

/-- A method with one for-loop and two conditionals, no await and no try. -/
def forIfMethod : MethodDecl :=
  { name := "scanFor"
    body := [Ast.forS "let i = 0; i < n; i++" [Ast.ifS "x > 0" [] [], Ast.ifS "y > 0" [] []]] }

/-- A method that calls `this.logger.info(...)` and contains a throw whose
text does not mention the dependency. -/
def reportMethod : MethodDecl :=
  { name := "report"
    params := ["data"]
    body :=
      [ Ast.callS (.propAcc "this.logger" "info") [Ast.stmtOther "data"],
        Ast.throwS (some ("Error", some "boom")) ] }

/-- A class with one constructor dependency `logger` and `reportMethod`. -/
def loggerClass : ClassDecl :=
  { name := "ReportService"
    ctorParams := [("logger", "Logger")]
    methods := [reportMethod] }

/-- A high-priority method with complexity 4 and no dependencies. -/
def mC2 : MethodTestStatus :=
  { methodName := "alpha", complexity := 4, hasTests := false, priority := .high,
    dependencies := [], errorCount := 0 }

/-- A low-priority untested method status. -/
def mA : MethodTestStatus :=
  { methodName := "alpha", complexity := 3, hasTests := false, priority := .medium,
    dependencies := [], errorCount := 0 }

/-- The empty manager state. -/
def st0 : SessionStateManager := {}

/-- After `createSession` for `mA` under id `"sid"`. -/
def st1 : SessionStateManager :=
  (createSession st0 "sid" "f.ts" "C" "unit" "out" [mA] 100).2

/-- After additionally marking `"alpha"` tested. -/
def st2 : SessionStateManager := (updateMethodStatus st1 "sid" "alpha" true (some "p") 200).2

/-- After additionally re-marking `"alpha"` as having no tests. -/
def st3 : SessionStateManager := (updateMethodStatus st2 "sid" "alpha" false none 300).2

/-- The session stored in `st1`. -/
def sessionW1 : TestGenerationSession :=
  { sessionId := "sid", filePath := "f.ts", className := "C", testType := "unit",
    outputPath := "out", methods := [mA], completedMethods := [], totalMethods := 1,
    createdAt := 100, lastActivity := 100 }

/-- The session stored in `st2`. -/
def sessionW2 : TestGenerationSession :=
  { sessionId := "sid", filePath := "f.ts", className := "C", testType := "unit",
    outputPath := "out",
    methods := [{ mA with hasTests := true, testPath := some "p", lastUpdated := some 200 }],
    completedMethods := ["alpha"], totalMethods := 1, createdAt := 100, lastActivity := 200 }

/-- A method-flow record with one error path, for the scenario generator. -/
def mfaW : MethodFlowAnalysis :=
  { name := "createUser"
    complexity := .simple
    flowType := .conditional
    dependencyUsage := []
    errorPaths := [createUserThrowPath, createUserGuardPath] }

/-- A class for the scenario generator lookup. -/
def clW : ClassDecl :=
  { name := "UserService", methods := [createUserMethod] }

/-- The per-method scenario record generated for `mfaW` against `clW`. -/
def tsW : TestScenario :=
  { methodName := "createUser"
    scenarios := generateMethodScenarios mfaW [] (some createUserMethod) }

/-- The raw conditional/loop/switch construct count of a method body (the
quantity `calculateComplexity` adds 1 to). -/
def constructCount (m : MethodDecl) : Nat :=
  countKind isIfNode m.body + countKind isForNode m.body + countKind isWhileNode m.body +
    countKind isSwitchNode m.body

/-- Order on complexity classes (simple < medium < complex). -/
def complexityRank : Complexity → Nat
  | .simple => 0
  | .medium => 1
  | .complex => 2

/-! ### Helper lemmas -/

theorem mem_mapIdxGo {α β : Type} {f : Nat → α → β} {p : β} :
    ∀ {l : List α} {i : Nat}, p ∈ mapIdxGo f i l → ∃ j x, x ∈ l ∧ p = f j x := by
  intro l
  induction l with
  | nil => intro i h; simp [mapIdxGo] at h
  | cons y ys ih =>
    intro i h
    simp only [mapIdxGo, List.mem_cons] at h
    rcases h with rfl | h
    · exact ⟨i, y, List.mem_cons_self _ _, rfl⟩
    · obtain ⟨j, x, hx, rfl⟩ := ih h
      exact ⟨j, x, List.mem_cons_of_mem _ hx, rfl⟩

theorem mem_insertSorted {x a : MethodTestStatus} :
    ∀ {l : List MethodTestStatus}, a ∈ insertSorted x l ↔ a = x ∨ a ∈ l := by
  intro l
  induction l with
  | nil => simp [insertSorted]
  | cons y ys ih =>
    simp only [insertSorted]
    split
    · simp only [List.mem_cons, ih]
      tauto
    · simp only [List.mem_cons]

theorem mem_sortMethods {a : MethodTestStatus} :
    ∀ {l : List MethodTestStatus}, a ∈ sortMethods l ↔ a ∈ l := by
  intro l
  induction l with
  | nil => simp [sortMethods]
  | cons y ys ih =>
    simp only [sortMethods, mem_insertSorted, ih, List.mem_cons]

theorem sortMethods_ne_nil {l : List MethodTestStatus} (h : l ≠ []) :
    sortMethods l ≠ [] := by
  obtain ⟨y, ys, rfl⟩ := List.exists_cons_of_ne_nil h
  intro hs
  have hy : y ∈ sortMethods (y :: ys) := mem_sortMethods.mpr (List.mem_cons_self _ _)
  rw [hs] at hy
  cases hy

theorem lookup_setAssoc {α : Type} (l : List (String × α)) (k k₂ : String) (v : α) :
    lookupAssoc (setAssoc l k v) k₂ = if k₂ = k then some v else lookupAssoc l k₂ := by
  induction l with
  | nil =>
    by_cases h : k₂ = k
    · subst h; simp [setAssoc, lookupAssoc]
    · have h' : ¬(k = k₂) := fun hh => h hh.symm
      simp [setAssoc, lookupAssoc, h, h']
  | cons p rest ih =>
    obtain ⟨k', v'⟩ := p
    by_cases hk : k' = k
    · subst hk
      by_cases h2 : k' = k₂
      · subst h2
        simp [setAssoc, lookupAssoc]
      · have h2' : ¬(k₂ = k') := fun hh => h2 hh.symm
        simp [setAssoc, lookupAssoc, h2, h2']
    · by_cases h2 : k' = k₂
      · subst h2
        simp [setAssoc, lookupAssoc, hk]
      · simp [setAssoc, lookupAssoc, hk, h2, ih]

theorem addScenarios_invariant {α : Type} (mk : α → ScenarioItem) :
    ∀ (items : List α) (acc : List ScenarioItem) (seen : List String),
      (∀ a ∈ acc, getScenarioKey a ∈ seen) →
      acc.Pairwise (fun a b => getScenarioKey a ≠ getScenarioKey b) →
      (∀ a ∈ (addScenarios mk items acc seen).1,
        getScenarioKey a ∈ (addScenarios mk items acc seen).2) ∧
      (addScenarios mk items acc seen).1.Pairwise
        (fun a b => getScenarioKey a ≠ getScenarioKey b) := by
  intro items
  induction items with
  | nil => intro acc seen hseen hpw; exact ⟨hseen, hpw⟩
  | cons it rest ih =>
    intro acc seen hseen hpw
    simp only [addScenarios]
    split
    · exact ih acc seen hseen hpw
    · next hnot =>
      apply ih
      · intro a ha
        rcases List.mem_append.mp ha with ha | ha
        · exact List.mem_cons_of_mem _ (hseen a ha)
        · have := List.mem_singleton.mp ha
          subst this
          exact List.mem_cons_self _ _
      · rw [List.pairwise_append]
        refine ⟨hpw, List.pairwise_singleton _ _, ?_⟩
        intro a ha b hb
        have hb' := List.mem_singleton.mp hb
        subst hb'
        intro hkey
        apply hnot
        rw [← hkey]
        exact List.elem_eq_true_of_mem (hseen a ha)

theorem singleton_scenario_invariant (s : ScenarioItem) :
    (∀ a ∈ [s], getScenarioKey a ∈ [getScenarioKey s]) ∧
      ([s] : List ScenarioItem).Pairwise (fun a b => getScenarioKey a ≠ getScenarioKey b) := by
  refine ⟨?_, List.pairwise_singleton _ _⟩
  intro a ha
  have := List.mem_singleton.mp ha
  subst this
  exact List.mem_singleton.mpr rfl

theorem generateMethodScenarios_pairwise (method : MethodFlowAnalysis)
    (dependencies : List DependencyAnalysis) (methodDecl : Option MethodDecl) :
    (generateMethodScenarios method dependencies methodDecl).Pairwise
      (fun a b => getScenarioKey a ≠ getScenarioKey b) := by
  unfold generateMethodScenarios
  cases methodDecl with
  | none =>
    exact (addScenarios_invariant _ method.errorPaths _ _
      (singleton_scenario_invariant _).1 (singleton_scenario_invariant _).2).2
  | some md =>
    have herr := addScenarios_invariant
      (fun (errorPath : ErrorPath) =>
        ({ name := method.name ++ " error - " ++ errorPath.condition
           stype := "error"
           setup := ["Setup condition: " ++ errorPath.condition]
           expectations := ["should throw " ++ errorPath.errorType]
           priority := 4 } : ScenarioItem))
      method.errorPaths _ _
      (singleton_scenario_invariant
        ({ name := method.name ++ " success"
           stype := "success"
           setup := generateSuccessSetup method dependencies
           expectations := ["expect(result).toEqual(expectedResult)"]
           priority := 5 } : ScenarioItem)).1
      (singleton_scenario_invariant _).2
    exact (addScenarios_invariant _ md.params _ _ herr.1 herr.2).2

/-! ### Claims -/

/-- C4 (counterexample): for the spec's `createUser`/`findUser` scenario, the
error-path analysis yields TWO error paths for `createUser`, not exactly one
as claimed — the `!email` emptiness guard also triggers the conditional-guard
pass (it matches the error-condition pattern `/!.*\w+/`). -/
theorem claim_C4_counterexample :
    (analyzeErrorPaths createUserMethod).length = 2 ∧
      ¬((analyzeErrorPaths createUserMethod).length = 1) := by decide

/-- C4 (amended): the analysis yields exactly two error paths for
`createUser` — the throw-pass path with category validation, severity low,
recoverable true and condition "missing required parameter" (as claimed),
plus a conditional-guard path for `!email` with category system, severity
low, recoverable true — and zero error paths for `findUser`. -/
theorem claim_C4_theorem :
    analyzeErrorPaths createUserMethod = [createUserThrowPath, createUserGuardPath] ∧
      analyzeErrorPaths findUserMethod = [] := by decide

/-- C1 (counterexample): the conditional-guard pass can produce an error path
with category security whose severity is high (not critical) and whose
recoverable flag is true (not false): the guard `user.roleError` passes
`isErrorCondition` (keyword "error") and is categorized security
(keyword "role"). -/
theorem claim_C1_counterexample :
    analyzeErrorPaths roleGuardMethod = [roleGuardPath] ∧
      roleGuardPath.category = .security ∧
      ¬(roleGuardPath.severity = .critical ∧ roleGuardPath.recoverable = false) := by decide

/-- C1 (amended): security implies critical severity and non-recoverability
only for the explicit-throw pass; a security-categorized path from the
conditional-guard pass instead has severity high and recoverable true, and
the try/catch and async-rejection passes never produce category security
(they always emit category system). -/
theorem claim_C1_theorem (m : MethodDecl) :
    (∀ p ∈ analyzeThrowStatements m, p.category = .security →
      p.severity = .critical ∧ p.recoverable = false) ∧
    (∀ p ∈ analyzeConditionalErrors m,
      p.recoverable = true ∧ (p.category = .security → p.severity = .high)) ∧
    (∀ p ∈ analyzeTryCatchBlocks m, p.category = .system) ∧
    (∀ p ∈ analyzeAsyncErrorPaths m, p.category = .system) := by
  refine ⟨?_, ?_, ?_, ?_⟩
  · intro p hp hsec
    unfold analyzeThrowStatements at hp
    obtain ⟨j, x, hx, rfl⟩ := mem_mapIdxGo hp
    have hcat : (mkThrowPath j x).category =
        categorizeError (extractErrorType x.1) (extractErrorMessage x.1) := rfl
    rw [hcat] at hsec
    refine ⟨?_, ?_⟩
    · show assessErrorSeverity (extractErrorType x.1)
        (categorizeError (extractErrorType x.1) (extractErrorMessage x.1)) = .critical
      rw [hsec]
      simp [assessErrorSeverity]
    · show isRecoverableError (extractErrorType x.1)
        (categorizeError (extractErrorType x.1) (extractErrorMessage x.1)) = false
      rw [hsec]
      simp [isRecoverableError]
  · intro p hp
    unfold analyzeConditionalErrors at hp
    rw [List.mem_filterMap] at hp
    obtain ⟨ci, _, heq⟩ := hp
    by_cases h : isErrorCondition ci.1 = true
    · rw [if_pos h] at heq
      injection heq with heq
      subst heq
      refine ⟨rfl, ?_⟩
      intro hsec
      have hcat : (mkCondPath ci).category = categorizeErrorCondition ci.1 := rfl
      rw [hcat] at hsec
      show assessConditionSeverity ci.1 (categorizeErrorCondition ci.1) = .high
      rw [hsec]
      simp [assessConditionSeverity]
    · rw [if_neg h] at heq
      cases heq
  · intro p hp
    unfold analyzeTryCatchBlocks at hp
    rw [List.mem_filterMap] at hp
    obtain ⟨ti, _, heq⟩ := hp
    rcases hcb : ti.1.2.1 with _ | cb
    · rw [hcb] at heq
      cases heq
    · rw [hcb] at heq
      injection heq with heq
      subst heq
      rfl
  · intro p hp
    unfold analyzeAsyncErrorPaths at hp
    simp only [] at hp
    by_cases h : (jsIncludes (renderMethod m) "reject" ||
        jsIncludes (renderMethod m) "Promise.reject") = true
    · rw [if_pos h] at hp
      have := List.mem_singleton.mp hp
      subst this
      rfl
    · rw [if_neg h] at hp
      cases hp

/-- C1 (witness): for a method throwing `new UnauthorizedError("forbidden")`,
the throw pass emits a security path that is indeed critical and
non-recoverable. -/
theorem claim_C1_witness :
    secThrowPath.severity = .critical ∧ secThrowPath.recoverable = false :=
  (claim_C1_theorem secThrowMethod).1 secThrowPath (by decide) (by decide)

/-- C5 (counterexample): a method body with exactly 3 conditional/loop/switch
constructs is classified "medium", not "simple" as claimed — the thresholds
apply to the score `1 + count`, so `count = 3` gives score 4 which exceeds
`SIMPLE_MAX = 3`. -/
theorem claim_C5_counterexample :
    constructCount threeIfMethod = 3 ∧ calculateComplexity threeIfMethod = .medium ∧
      Complexity.medium ≠ Complexity.simple := by decide

/-- C5 (amended): the score is `1 + count` and the thresholds `≤3`/`≤7` apply
to the score, so the class boundaries sit at `count = 2` (simple),
`count = 3` (medium), `count = 6` (medium) and `count = 7` (complex); the
class remains monotonic in the count. -/
theorem claim_C5_theorem (m m' : MethodDecl) :
    (constructCount m = 2 → calculateComplexity m = .simple) ∧
    (constructCount m = 3 → calculateComplexity m = .medium) ∧
    (constructCount m = 6 → calculateComplexity m = .medium) ∧
    (constructCount m = 7 → calculateComplexity m = .complex) ∧
    (constructCount m ≤ constructCount m' →
      complexityRank (calculateComplexity m) ≤ complexityRank (calculateComplexity m')) := by
  refine ⟨?_, ?_, ?_, ?_, ?_⟩ <;>
    intro h <;>
    unfold constructCount at h <;>
    simp only [calculateComplexity, COMPLEXITY_THRESHOLDS] <;>
    split_ifs <;>
    first
      | rfl
      | omega
      | (simp only [complexityRank]; omega)

/-- C5 (witness): two conditionals give "simple", three give "medium". -/
theorem claim_C5_witness :
    calculateComplexity twoIfMethod = .simple ∧ calculateComplexity threeIfMethod = .medium :=
  ⟨(claim_C5_theorem twoIfMethod twoIfMethod).1 (by decide),
   (claim_C5_theorem threeIfMethod threeIfMethod).2.1 (by decide)⟩

/-- C6 (counterexample): a method containing a while-loop construct and a
conditional construct (no await, no try) is classified "conditional", not
"loop" — `determineFlowType` only checks for-statements for its loop test,
while the complexity counter treats while-statements as loop constructs. -/
theorem claim_C6_counterexample :
    determineFlowType whileIfMethod = .conditional ∧
      countKind isWhileNode whileIfMethod.body = 1 ∧
      countKind isAwaitNode whileIfMethod.body = 0 ∧
      countKind isTryNode whileIfMethod.body = 0 ∧
      FlowType.conditional ≠ FlowType.loop := by decide

/-- C6 (amended): the stated precedence holds with the loop test restricted
to for-loop constructs: error-prone (try and await) > async-chain (await and
more than 3 calls) > loop (a FOR-loop descendant) > conditional > linear;
a method whose only loop is a while-loop falls through the loop case. -/
theorem claim_C6_theorem (m : MethodDecl) :
    (hasErrorHandlingB m = true → hasAwaitB m = true →
      determineFlowType m = .errorProne) ∧
    ((hasErrorHandlingB m = false ∨ hasAwaitB m = false) → hasAwaitB m = true →
      callExprCount m > 3 → determineFlowType m = .asyncChain) ∧
    ((hasErrorHandlingB m = false ∨ hasAwaitB m = false) →
      (hasAwaitB m = false ∨ callExprCount m ≤ 3) → hasLoopsB m = true →
      determineFlowType m = .loop) ∧
    ((hasErrorHandlingB m = false ∨ hasAwaitB m = false) →
      (hasAwaitB m = false ∨ callExprCount m ≤ 3) → hasLoopsB m = false →
      hasConditionalsB m = true → determineFlowType m = .conditional) ∧
    ((hasErrorHandlingB m = false ∨ hasAwaitB m = false) →
      (hasAwaitB m = false ∨ callExprCount m ≤ 3) → hasLoopsB m = false →
      hasConditionalsB m = false → determineFlowType m = .linear) := by
  refine ⟨?_, ?_, ?_, ?_, ?_⟩
  · intro he ha
    simp [determineFlowType, he, ha]
  · intro hor ha hc
    rcases hor with he | he
    · simp [determineFlowType, he, ha, decide_eq_true hc]
    · rw [he] at ha
      cases ha
  · intro hor hor2 hl
    have hna : ¬(hasErrorHandlingB m = true ∧ hasAwaitB m = true) := by
      rcases hor with he | he <;> simp [he]
    have hnb : ¬(hasAwaitB m = true ∧ 3 < callExprCount m) := by
      rcases hor2 with ha | hc2
      · simp [ha]
      · intro hx
        exact absurd hx.2 (by omega)
    simp [determineFlowType, hna, hnb, hl]
  · intro hor hor2 hl hc
    have hna : ¬(hasErrorHandlingB m = true ∧ hasAwaitB m = true) := by
      rcases hor with he | he <;> simp [he]
    have hnb : ¬(hasAwaitB m = true ∧ 3 < callExprCount m) := by
      rcases hor2 with ha | hc2
      · simp [ha]
      · intro hx
        exact absurd hx.2 (by omega)
    simp [determineFlowType, hna, hnb, hl, hc]
  · intro hor hor2 hl hc
    have hna : ¬(hasErrorHandlingB m = true ∧ hasAwaitB m = true) := by
      rcases hor with he | he <;> simp [he]
    have hnb : ¬(hasAwaitB m = true ∧ 3 < callExprCount m) := by
      rcases hor2 with ha | hc2
      · simp [ha]
      · intro hx
        exact absurd hx.2 (by omega)
    simp [determineFlowType, hna, hnb, hl, hc]

/-- C6 (witness): a method with one for-loop and two conditionals (no await,
no try) is classified "loop". -/
theorem claim_C6_witness : determineFlowType forIfMethod = .loop :=
  (claim_C6_theorem forIfMethod).2.2.1 (Or.inl (by decide)) (Or.inl (by decide)) (by decide)

/-- C7 (counterexample): for a class whose method calls `this.logger.info`
and contains a throw statement that does not mention the dependency (and no
try/catch at all), the `DependencyUsage` for `logger` still has
`errorHandling = true` — the throw check only tests for the presence of any
throw statement, not whether its text references the dependency. -/
theorem claim_C7_counterexample :
    analyzeDependencyUsage loggerClass "logger" =
      [{ methodName := "report", calls := ["info"], isConditional := false,
         errorHandling := true }] ∧
      countKind isTryNode reportMethod.body = 0 ∧
      jsIncludes (renderAst (Ast.throwS (some ("Error", some "boom")))) "this.logger" = false := by
  decide

/-- C7 (amended): `errorHandling` is true exactly when some try/catch
construct's text references the dependency OR the method contains at least
one raise construct, whether or not that raise references the dependency. -/
theorem claim_C7_theorem (m : MethodDecl) (depName : String) :
    hasErrorHandling m depName = true ↔
      ((∃ a ∈ nodesOfList m.body,
          isTryNode a = true ∧ jsIncludes (renderAst a) ("this." ++ depName) = true) ∨
        ∃ a ∈ nodesOfList m.body, isThrowNode a = true) := by
  unfold hasErrorHandling
  simp only [Bool.or_eq_true, List.any_eq_true]
  constructor
  · rintro (⟨a, ha, hf⟩ | hthrow)
    · left
      refine ⟨a, ha, ?_⟩
      cases a <;> first
        | exact ⟨rfl, hf⟩
        | exact absurd hf Bool.false_ne_true
    · right
      rw [decide_eq_true_eq] at hthrow
      unfold countKind at hthrow
      have hne : (nodesOfList m.body).filter isThrowNode ≠ [] := by
        intro hnil
        rw [hnil] at hthrow
        simp at hthrow
      obtain ⟨x, xs, hx⟩ := List.exists_cons_of_ne_nil hne
      have hxm : x ∈ (nodesOfList m.body).filter isThrowNode := by
        rw [hx]
        exact List.mem_cons_self _ _
      obtain ⟨hmem, hth⟩ := List.mem_filter.mp hxm
      exact ⟨x, hmem, hth⟩
  · rintro (⟨a, ha, hTry, hInc⟩ | ⟨a, ha, hThrow⟩)
    · left
      refine ⟨a, ha, ?_⟩
      cases a <;> first
        | exact hInc
        | exact absurd hTry Bool.false_ne_true
    · right
      rw [decide_eq_true_eq]
      unfold countKind
      have : a ∈ (nodesOfList m.body).filter isThrowNode :=
        List.mem_filter.mpr ⟨ha, hThrow⟩
      have hne := List.ne_nil_of_mem this
      exact List.length_pos.mpr hne

/-- Every method satisfies at least one of the three phase filters. -/
theorem phasePred_total (m : MethodTestStatus) :
    critP m = true ∨ medP m = true ∨ simpP m = true := by
  unfold critP medP simpP
  rcases m with ⟨_, c, _, _, p, deps, _, _⟩
  rcases p <;> rcases deps with _ | ⟨d, ds⟩ <;> simp <;> try omega

/-- A method passing a phase filter lands in the corresponding phase. -/
theorem mem_phase_of_crit {methods : List MethodTestStatus} {m : MethodTestStatus}
    (hm : m ∈ methods) (h : critP m = true) :
    ∃ ph ∈ createPhases methods, m.methodName ∈ ph.methods := by
  have hmem : m ∈ methods.filter critP := List.mem_filter.mpr ⟨hm, h⟩
  have hne : (methods.filter critP).isEmpty = false := by
    rw [Bool.eq_false_iff]
    intro habs
    rw [List.isEmpty_iff] at habs
    rw [habs] at hmem
    cases hmem
  refine ⟨{ phaseNumber := 1, name := "Critical Methods",
            methods := (methods.filter critP).map (·.methodName),
            description := "Test core business logic and high-complexity methods first",
            priority := "critical",
            estimatedTime := toString ((methods.filter critP).length * 8) ++ "min",
            completed := false }, ?_, List.mem_map.mpr ⟨m, hmem, rfl⟩⟩
  unfold createPhases
  simp only [hne, Bool.false_eq_true, if_false, List.mem_append]
  left
  left
  exact List.mem_singleton.mpr rfl

theorem mem_phase_of_med {methods : List MethodTestStatus} {m : MethodTestStatus}
    (hm : m ∈ methods) (h : medP m = true) :
    ∃ ph ∈ createPhases methods, m.methodName ∈ ph.methods := by
  have hmem : m ∈ methods.filter medP := List.mem_filter.mpr ⟨hm, h⟩
  have hne : (methods.filter medP).isEmpty = false := by
    rw [Bool.eq_false_iff]
    intro habs
    rw [List.isEmpty_iff] at habs
    rw [habs] at hmem
    cases hmem
  refine ⟨{ phaseNumber := 2, name := "Core Methods",
            methods := (methods.filter medP).map (·.methodName),
            description := "Test methods with dependencies and moderate complexity",
            priority := "high",
            estimatedTime := toString ((methods.filter medP).length * 5) ++ "min",
            completed := false }, ?_, List.mem_map.mpr ⟨m, hmem, rfl⟩⟩
  unfold createPhases
  simp only [hne, Bool.false_eq_true, if_false, List.mem_append]
  left
  right
  exact List.mem_singleton.mpr rfl

theorem mem_phase_of_simp {methods : List MethodTestStatus} {m : MethodTestStatus}
    (hm : m ∈ methods) (h : simpP m = true) :
    ∃ ph ∈ createPhases methods, m.methodName ∈ ph.methods := by
  have hmem : m ∈ methods.filter simpP := List.mem_filter.mpr ⟨hm, h⟩
  have hne : (methods.filter simpP).isEmpty = false := by
    rw [Bool.eq_false_iff]
    intro habs
    rw [List.isEmpty_iff] at habs
    rw [habs] at hmem
    cases hmem
  refine ⟨{ phaseNumber := 3, name := "Utility Methods",
            methods := (methods.filter simpP).map (·.methodName),
            description := "Test simple utility and helper methods",
            priority := "medium",
            estimatedTime := toString ((methods.filter simpP).length * 3) ++ "min",
            completed := false }, ?_, List.mem_map.mpr ⟨m, hmem, rfl⟩⟩
  unfold createPhases
  simp only [hne, Bool.false_eq_true, if_false, List.mem_append]
  right
  exact List.mem_singleton.mpr rfl

/-- C2 (counterexample): a high-priority method with complexity 4 belongs to
BOTH Phase 1 (priority high) and Phase 2 (complexity in [4,8)), so the phases
are not disjoint — the claim that each method belongs to exactly one phase
fails. -/
theorem claim_C2_counterexample :
    ((createPhases [mC2]).countP (fun ph => ph.methods.contains "alpha")) = 2 ∧
      ¬((createPhases [mC2]).countP (fun ph => ph.methods.contains "alpha") = 1) := by
  decide

/-- C2 (amended): the phases cover the methods exhaustively — every method
belongs to at least one phase and every phase entry names a method of the
input — but the phases can overlap, so membership is not exclusive. -/
theorem claim_C2_theorem (methods : List MethodTestStatus) :
    (∀ m ∈ methods, ∃ ph ∈ createPhases methods, m.methodName ∈ ph.methods) ∧
    (∀ ph ∈ createPhases methods, ∀ x ∈ ph.methods, ∃ m ∈ methods, m.methodName = x) := by
  constructor
  · intro m hm
    rcases phasePred_total m with h | h | h
    · exact mem_phase_of_crit hm h
    · exact mem_phase_of_med hm h
    · exact mem_phase_of_simp hm h
  · intro ph hph x hx
    unfold createPhases at hph
    rw [List.mem_append, List.mem_append] at hph
    have hand : ∀ (p : MethodTestStatus → Bool),
        ph.methods = (methods.filter p).map (·.methodName) →
        ∃ m ∈ methods, m.methodName = x := by
      intro p hpm
      rw [hpm] at hx
      obtain ⟨m, hmf, rfl⟩ := List.mem_map.mp hx
      exact ⟨m, (List.mem_filter.mp hmf).1, rfl⟩
    rcases hph with (hph | hph) | hph
    · split at hph
      · cases hph
      · have := List.mem_singleton.mp hph
        subst this
        exact hand critP rfl
    · split at hph
      · cases hph
      · have := List.mem_singleton.mp hph
        subst this
        exact hand medP rfl
    · split at hph
      · cases hph
      · have := List.mem_singleton.mp hph
        subst this
        exact hand simpP rfl

/-- C2 (witness): the single method of a one-method list is covered by some
phase. -/
theorem claim_C2_witness :
    ∃ ph ∈ createPhases [mA], mA.methodName ∈ ph.methods :=
  (claim_C2_theorem [mA]).1 mA (by decide)

/-- C3 (counterexample): after `createSession` with one untested method
"alpha", `updateMethodStatus(..., true)` and then
`updateMethodStatus(..., false)`, `getNextMethod` returns "alpha" even though
"alpha" is still in `completedMethods` (which at that point covers all
methods, so the claim's "none iff covered" direction fails too). -/
theorem claim_C3_counterexample :
    (getNextMethod st3 "sid").map (·.methodName) = some "alpha" ∧
      (lookupAssoc st3.sessions "sid").map (·.completedMethods) = some ["alpha"] := by
  decide

/-- C3 (amended): `getNextMethod` is governed by the `hasTests` flags, not by
`completedMethods`: it never returns a method whose `hasTests` is true, and
it returns none iff every method of the session has `hasTests = true`. -/
theorem claim_C3_theorem (st : SessionStateManager) (sid : String)
    (session : TestGenerationSession)
    (h : lookupAssoc st.sessions sid = some session) :
    ((getNextMethod st sid = none) ↔ ∀ m ∈ session.methods, m.hasTests = true) ∧
    (∀ m, getNextMethod st sid = some m → m.hasTests = false ∧ m ∈ session.methods) := by
  unfold getNextMethod
  rw [h]
  dsimp only
  by_cases he : (session.methods.filter (fun m => !m.hasTests)).isEmpty = true
  · rw [if_pos he]
    constructor
    · constructor
      · intro _ m hm
        rw [List.isEmpty_iff, List.filter_eq_nil_iff] at he
        have := he m hm
        simpa using this
      · intro _
        rfl
    · intro m hm
      cases hm
  · rw [if_neg he]
    have hne : session.methods.filter (fun m => !m.hasTests) ≠ [] := by
      intro habs
      rw [List.isEmpty_iff] at he
      exact he habs
    have hsne := sortMethods_ne_nil hne
    obtain ⟨y, ys, hys⟩ := List.exists_cons_of_ne_nil hsne
    rw [hys]
    constructor
    · constructor
      · intro habs
        cases habs
      · intro hall
        exfalso
        obtain ⟨z, zs, hz⟩ := List.exists_cons_of_ne_nil hne
        have hzm : z ∈ session.methods.filter (fun m => !m.hasTests) := by
          rw [hz]
          exact List.mem_cons_self _ _
        obtain ⟨hzmem, hzf⟩ := List.mem_filter.mp hzm
        have := hall z hzmem
        rw [this] at hzf
        cases hzf
    · intro m hm
      have hym : m ∈ sortMethods (session.methods.filter (fun m => !m.hasTests)) := by
        rw [hys]
        injection hm with hm
        rw [← hm]
        exact List.mem_cons_self _ _
      have := mem_sortMethods.mp hym
      obtain ⟨hmem, hf⟩ := List.mem_filter.mp this
      refine ⟨?_, hmem⟩
      simpa using hf

/-- C3 (witness): in the state where the only method is tested,
`getNextMethod` returns none. -/
theorem claim_C3_witness : getNextMethod st2 "sid" = none :=
  (claim_C3_theorem st2 "sid" sessionW2 (by decide)).1.mpr (by decide)

/-- C8: every tracker operation invoked with an unknown session id returns a
"not found" result (false or none) and leaves the state unchanged, and
`updateMethodStatus` with a known session id but unknown method name likewise
returns false without mutating anything. -/
theorem claim_C8_theorem (st : SessionStateManager) (sid name cm : String)
    (hasTests : Bool) (testPath : Option String) (now : Nat) :
    (lookupAssoc st.sessions sid = none →
      getSession st sid = none ∧
      updateMethodStatus st sid name hasTests testPath now = (false, st) ∧
      getNextMethod st sid = none ∧
      getProgress st sid = none) ∧
    (lookupAssoc st.plans sid = none →
      getPlan st sid = none ∧
      updatePlanProgress st sid cm = (false, st)) ∧
    (∀ session, lookupAssoc st.sessions sid = some session →
      session.methods.find? (fun m => m.methodName = name) = none →
      updateMethodStatus st sid name hasTests testPath now = (false, st)) := by
  refine ⟨?_, ?_, ?_⟩
  · intro h
    refine ⟨h, ?_, ?_, ?_⟩
    · unfold updateMethodStatus
      rw [h]
    · unfold getNextMethod
      rw [h]
    · unfold getProgress
      rw [h]
  · intro h
    refine ⟨h, ?_⟩
    unfold updatePlanProgress
    rw [h]
  · intro session hs hfind
    unfold updateMethodStatus
    rw [hs]
    dsimp only
    rw [hfind]

/-- C8 (witness): concrete "not found" results on the empty manager state and
on a state whose session does not contain the requested method. -/
theorem claim_C8_witness :
    (getSession st0 "nope" = none ∧
      updateMethodStatus st0 "nope" "m" true none 0 = (false, st0) ∧
      getNextMethod st0 "nope" = none ∧
      getProgress st0 "nope" = none) ∧
    (getPlan st0 "nope" = none ∧
      updatePlanProgress st0 "nope" "m" = (false, st0)) ∧
    updateMethodStatus st1 "sid" "beta" true none 0 = (false, st1) :=
  ⟨(claim_C8_theorem st0 "nope" "m" "m" true none 0).1 (by decide),
   (claim_C8_theorem st0 "nope" "m" "m" true none 0).2.1 (by decide),
   (claim_C8_theorem st1 "sid" "beta" "x" true none 0).2.2 sessionW1 (by decide) (by decide)⟩

/-- C9: scenario generation is deterministic (it is a pure function of its
input, so two runs on identical input give identical lists), and each
per-method scenario list contains no two scenarios sharing the
(name, type, setup, expectations) tuple. -/
theorem claim_C9_theorem (methods : List MethodFlowAnalysis)
    (dependencies : List DependencyAnalysis) (classDecl : ClassDecl) :
    generateTestScenarios methods dependencies classDecl =
      generateTestScenarios methods dependencies classDecl ∧
    ∀ ts ∈ generateTestScenarios methods dependencies classDecl,
      ts.scenarios.Pairwise (fun a b =>
        ¬(a.name = b.name ∧ a.stype = b.stype ∧ a.setup = b.setup ∧
          a.expectations = b.expectations)) := by
  refine ⟨rfl, ?_⟩
  intro ts hts
  unfold generateTestScenarios at hts
  obtain ⟨method, _, rfl⟩ := List.mem_map.mp hts
  have hpw := generateMethodScenarios_pairwise method dependencies
    (classDecl.methods.find? (fun md => md.name == method.name))
  refine hpw.imp ?_
  intro a b hkey habs
  apply hkey
  unfold getScenarioKey
  rw [habs.1, habs.2.1, habs.2.2.1, habs.2.2.2]

/-- C9 (witness): the scenario list generated for the concrete
`createUser` method-flow record has pairwise-distinct scenario tuples. -/
theorem claim_C9_witness :
    tsW.scenarios.Pairwise (fun a b =>
      ¬(a.name = b.name ∧ a.stype = b.stype ∧ a.setup = b.setup ∧
        a.expectations = b.expectations)) :=
  (claim_C9_theorem [mfaW] [] clW).2 tsW (by decide)

/-- C10: `updateMethodStatus` with `hasTests = false` never removes entries
from any session's `completedMethods`; concretely, after marking "alpha"
tested and re-marking it untested, its `hasTests` flag is false while
"alpha" remains in `completedMethods`, so the two can diverge. -/
theorem claim_C10_theorem :
    (∀ (st : SessionStateManager) (sid name : String) (testPath : Option String)
        (now : Nat) (sid₂ : String),
      (lookupAssoc ((updateMethodStatus st sid name false testPath now).2).sessions sid₂).map
          (·.completedMethods) =
        (lookupAssoc st.sessions sid₂).map (·.completedMethods)) ∧
    ((lookupAssoc st3.sessions "sid").map
        (·.methods.map (fun m => (m.methodName, m.hasTests))) = some [("alpha", false)] ∧
      (lookupAssoc st3.sessions "sid").map (·.completedMethods) = some ["alpha"]) := by
  constructor
  · intro st sid name testPath now sid₂
    unfold updateMethodStatus
    cases h : lookupAssoc st.sessions sid with
    | none => rfl
    | some session =>
      dsimp only
      cases hf : session.methods.find? (fun m => m.methodName = name) with
      | none => rfl
      | some m0 =>
        dsimp only
        rw [lookup_setAssoc]
        by_cases h2 : sid₂ = sid
        · subst h2
          rw [if_pos rfl, h]
          simp
        · rw [if_neg h2]
  · exact ⟨by decide, by decide⟩
